import Mathlib

/-!
Verification of the overlay suggestion engine of a rich-text editor.

The development shallowly embeds two source components:

- the `DiffExtension` (range-modification suggestions): its storage
  (`modifications` list plus `modificationCounter`), the commands `addDiff`,
  `clearDiffs`, `acceptDiff`, the decoration helper
  `createDecorationsForPlugin`, the `diffDecorations` plugin `apply`
  function, and the `diffTabHandler` plugin key handler;

- the `Autocomplete` extension (inline ghost-text completions): the
  debounced trigger plugin, the stale-response check of the fetch callback,
  the ghost-text decoration, and the Tab key handler.

The document is modelled by its plain-text content (`String`, positions are
character offsets); ProseMirror mark operations do not change the text and
are therefore not part of the text-level model.  Stateful TypeScript code is
embedded as explicit state-passing functions.
-/

/-- A pending range edit, as stored by the extension: an id string, the
span boundaries and the proposed replacement text. -/
structure Modification where
  id : String
  «from» : Nat
  «to» : Nat
  newText : String
deriving DecidableEq, Repr

/-- The extension storage: the list of pending modifications (in insertion
order; `push` appends at the end) and the monotone id counter. -/
structure DiffStorage where
  modifications : List Modification
  modificationCounter : Nat
deriving DecidableEq, Repr

/-- The id string assigned by `addDiff`: the template string
interpolation of the counter after the text mod and a dash. -/
def mkId (n : Nat) : String := "mod-" ++ toString n

/-- The `addDiff` command: assigns the id from the current counter value,
increments the counter, appends the new modification at the end of the
list, and returns the assigned id (the source returns `true` and keeps the
id inside the stored record; we expose the id for the session theorems). -/
def addDiff (storage : DiffStorage) (f t : Nat) (newText : String) :
    DiffStorage × String :=
  let id := mkId storage.modificationCounter
  ({ modifications :=
       storage.modifications ++ [{ id := id, «from» := f, «to» := t, newText := newText }],
     modificationCounter := storage.modificationCounter + 1 }, id)

/-- The `clearDiffs` command: empties the modification list and resets the
counter to zero. -/
def clearDiffs (_storage : DiffStorage) : DiffStorage :=
  { modifications := [], modificationCounter := 0 }

/-- The predicate of the `find` callback inside `acceptDiff`: the cursor
position lies in the approximate (widened) range of the modification,
from `from` up to `to` plus the length of `newText`. -/
def inWidenedRange (pos : Nat) (m : Modification) : Bool :=
  decide (m.«from» ≤ pos) && decide (pos ≤ m.«to» + m.newText.length)

/-- The text-level effect of `tr.replaceWith(from, to, newNode)` where the
node is a plain text node holding `newText`: the characters of the span
from `f` (inclusive) to `t` (exclusive) are replaced by `newText`. -/
def replaceWith (doc : String) (f t : Nat) (newText : String) : String :=
  ((doc.toList.take f) ++ newText.toList ++ (doc.toList.drop t)).asString

/-- The `acceptDiff` command.  It reads the cursor position, searches the
stored modifications (in list order, via `find`) for the first one whose
widened range contains the cursor; if none is found it returns `false`
leaving storage and document unchanged; otherwise it replaces the span of
the found modification by its `newText` in one transaction, removes every
stored modification carrying the found id, and returns `true`.  The mark
re-application steps of the source only change styling marks, never the
text, so they are invisible at this level of the model. -/
def acceptDiff (storage : DiffStorage) (doc : String) (pos : Nat) :
    Bool × DiffStorage × String :=
  match storage.modifications.find? (inWidenedRange pos) with
  | none => (false, storage, doc)
  | some m =>
      (true,
       { storage with
           modifications := storage.modifications.filter (fun x => x.id != m.id) },
       replaceWith doc m.«from» m.«to» m.newText)

/-- A visual overlay marker: either an inline mark over a span with a css
class and an associated modification id, or a widget carrying a css class,
a text content and an associated modification id, anchored at a single
position. -/
inductive Decoration where
  | inline (dfrom dto : Nat) (cssClass : String) (modId : String)
  | widget (wpos : Nat) (cssClass : String) (text : String) (modId : String)
deriving DecidableEq, Repr

/-- The `createDecorationsForPlugin` helper: for every stored modification,
one `diff-delete` inline decoration over its span and one `diff-insert`
widget at its `to` position showing `newText`. -/
def createDecorationsForPlugin (mods : List Modification) : List Decoration :=
  mods.flatMap (fun m =>
    [Decoration.inline m.«from» m.«to» "diff-delete" m.id,
     Decoration.widget m.«to» "diff-insert" m.newText m.id])

/-- Mapping a decoration through a position map (the text effect of
`oldSet.map(tr.mapping, tr.doc)`). -/
def mapDecoration (f : Nat → Nat) : Decoration → Decoration
  | Decoration.inline a b c i => Decoration.inline (f a) (f b) c i
  | Decoration.widget p c t i => Decoration.widget (f p) c t i

/-- The `apply` function of the `diffDecorations` plugin state: if the
transaction carries the `diffUpdate` meta flag or changed the document, the
decorations are recreated from the stored modifications (as they are, with
no remapping of the stored coordinates); otherwise the old decoration set
is mapped through the transaction mapping. -/
def diffDecorationsApply (docChanged diffUpdate : Bool)
    (mods : List Modification) (oldSet : List Decoration)
    (mapPos : Nat → Nat) : List Decoration :=
  if diffUpdate || docChanged then createDecorationsForPlugin mods
  else oldSet.map (mapDecoration mapPos)

/-- Modelled from the spec: the position map of the Document Transaction
Log (an external collaborator, not in the sources) for a deletion of the
range from `p` to `q`: offsets at or past `q` shift down by the deleted
length, offsets inside the range collapse to `p`, earlier offsets are
unchanged. -/
def mapPosDelete (p q x : Nat) : Nat :=
  if q ≤ x then x - (q - p) else if p ≤ x then p else x

/-- The editor-level state relevant to the diff extension: the plain text
document, the extension storage and the current decoration set. -/
structure EditorState where
  doc : String
  storage : DiffStorage
  decos : List Decoration
deriving DecidableEq, Repr

/-- A user edit deleting the range from `p` to `q`: the resulting
transaction has `docChanged` set and no `diffUpdate` meta, so the
`diffDecorations` plugin recreates the decorations from the stored
modifications; the storage itself is not touched by any code path of the
extension on a plain document edit. -/
def applyDeleteEdit (s : EditorState) (p q : Nat) : EditorState :=
  { doc := ((s.doc.toList.take p) ++ (s.doc.toList.drop q)).asString,
    storage := s.storage,
    decos := diffDecorationsApply true false s.storage.modifications s.decos
      (mapPosDelete p q) }

/-- The proximity check of the `diffTabHandler` plugin: some stored
modification has `from ≤ pos` and `pos ≤ to + 1`. -/
def isNearModificationCheck (mods : List Modification) (pos : Nat) : Bool :=
  mods.any (fun m => decide (m.«from» ≤ pos) && decide (pos ≤ m.«to» + 1))

/-- The `handleKeyDown` of the `diffTabHandler` plugin: on Tab, if the
proximity check succeeds, `acceptDiff` is invoked; when it accepts, the
event is consumed (`true`) with the accepted state; otherwise the handler
returns `false` and the event falls through to the default Tab behavior
with storage and document unchanged. -/
def diffTabHandler (key : String) (storage : DiffStorage) (doc : String)
    (pos : Nat) : Bool × DiffStorage × String :=
  if key = "Tab" then
    if isNearModificationCheck storage.modifications pos then
      match acceptDiff storage doc pos with
      | (true, storage2, doc2) => (true, storage2, doc2)
      | (false, _, _) => (false, storage, doc)
    else (false, storage, doc)
  else (false, storage, doc)

/-- The fetch callback of the `Autocomplete` trigger plugin, at the moment
the network response arrives.  Editor states are modelled by a version
number: every dispatched transaction yields a fresh state object, so two
states are reference-equal exactly when their versions coincide.  The
source installs the completion only when it is truthy (a nonempty string)
and the view state is still the state captured when the request was
issued; otherwise the current suggestion slot is left as it is. -/
def handleCompletionResponse (completion : String) (captured current : Nat)
    (currentSuggestion : Option String) : Option String :=
  if completion != "" && captured == current then some completion
  else currentSuggestion

/-- The `decorations` prop of the suggestion plugin: no suggestion or a
non-collapsed selection renders nothing; otherwise one `inline-suggestion`
ghost widget at the caret showing the suggestion text. -/
def suggestionDecorations (currentSuggestion : Option String)
    (selectionEmpty : Bool) (pos : Nat) : List Decoration :=
  match currentSuggestion with
  | none => []
  | some s =>
      if selectionEmpty then [Decoration.widget pos "inline-suggestion" s ""]
      else []

/-- The suggestion-slot effect of the `update` function of the
`autocomplete-trigger` plugin view: when the selection is not collapsed the
pending suggestion is cleared (by a meta-only transaction that leaves the
document unchanged); when the selection is collapsed the suggestion slot is
not touched (the function then only resets the debounce timer, modelled
separately). -/
def autocompleteTriggerUpdate (selectionEmpty : Bool)
    (currentSuggestion : Option String) (doc : String) :
    Option String × String :=
  if selectionEmpty then (currentSuggestion, doc) else (none, doc)

/-- The `handleKeyDown` of the suggestion plugin: only a Tab press with a
pending suggestion is handled; the caret parent node must be of a
text-bearing kind; `insertText` at the caret changes the document exactly
when the suggestion text is nonempty, and only then is the event consumed
and the suggestion slot cleared.  Every other key press returns `false`
without touching the suggestion slot or the document. -/
def suggestionHandleKeyDown (key : String) (currentSuggestion : Option String)
    (doc : String) (pos : Nat) (parentIsTextBlock : Bool) :
    Bool × Option String × String :=
  if key = "Tab" then
    match currentSuggestion with
    | some s =>
        if parentIsTextBlock then
          if s != "" then
            (true, none, ((doc.toList.take pos) ++ s.toList ++ (doc.toList.drop pos)).asString)
          else (false, currentSuggestion, doc)
        else (false, currentSuggestion, doc)
    | none => (false, currentSuggestion, doc)
  else (false, currentSuggestion, doc)

/-- The debounce delay of the autocomplete trigger, in milliseconds. -/
def debounceMs : Nat := 2000

/-- The event-loop state of the debounce logic: the scheduled fire time of
the pending `suggestionTimer` (if any) and the times at which the fetch
callback has run. -/
structure TimerState where
  pending : Option Nat
  fired : List Nat
deriving DecidableEq, Repr

/-- Event-loop bookkeeping: a timer whose deadline is not after `now` has
already fired (its callback ran at the deadline). -/
def fireDue (s : TimerState) (now : Nat) : TimerState :=
  match s.pending with
  | some ft => if ft ≤ now then { pending := none, fired := s.fired ++ [ft] } else s
  | none => s

/-- One editor-update trigger at time `now`: any timer already elapsed has
fired; then `clearTimeout` discards whatever timer is still pending and
`setTimeout` schedules a fresh fetch `debounceMs` after `now`. -/
def triggerUpdate (s : TimerState) (now : Nat) : TimerState :=
  let s2 := fireDue s now
  { s2 with pending := some (now + debounceMs) }

/-- A run of the trigger plugin over a sequence of update times, starting
with no pending timer and no fetch issued. -/
def runTriggers (ts : List Nat) : TimerState :=
  ts.foldl triggerUpdate { pending := none, fired := [] }

/-- Let the timeline run to completion: the fetches issued in total are the
ones already fired plus the pending timer, which now fires. -/
def elapse (s : TimerState) : List Nat :=
  s.fired ++ (match s.pending with | some ft => [ft] | none => [])

/-- The trigger times after `t` all fall inside the debounce window of
their predecessor (and time is monotone). -/
def withinWindow : Nat → List Nat → Bool
  | _, [] => true
  | t, b :: bs => (decide (t ≤ b) && decide (b < t + debounceMs)) && withinWindow b bs

/-- One operation of a document session against the diff extension. -/
inductive SessionOp where
  | add («from» «to» : Nat) (newText : String)
  | clear
  | accept (pos : Nat)
deriving DecidableEq, Repr

/-- Running one session operation on a storage/document pair, returning the
list of ids issued by the operation (one for an add, none otherwise). -/
def runOp (s : DiffStorage × String) (op : SessionOp) :
    (DiffStorage × String) × List String :=
  match op with
  | SessionOp.add f t txt =>
      let r := addDiff s.1 f t txt
      ((r.1, s.2), [r.2])
  | SessionOp.clear => ((clearDiffs s.1, s.2), [])
  | SessionOp.accept pos =>
      let r := acceptDiff s.1 s.2 pos
      ((r.2.1, r.2.2), [])

/-- Running a session: the final storage/document pair and the ids issued
by the `addDiff` calls, in order. -/
def runSession (s : DiffStorage × String) : List SessionOp → (DiffStorage × String) × List String
  | [] => (s, [])
  | op :: ops =>
      let r := runOp s op
      let rest := runSession r.1 ops
      (rest.1, r.2 ++ rest.2)

/-- The number of add operations in a session fragment. -/
def countAdds (ops : List SessionOp) : Nat :=
  ops.countP (fun op => match op with | SessionOp.add _ _ _ => true | _ => false)

/-- The time of the last trigger of a nonempty trigger sequence, written
with an explicit head so that no partiality arises. -/
def lastTime (t : Nat) : List Nat → Nat
  | [] => t
  | b :: bs => lastTime b bs

/-- The numeric value of a decimal digit character (used only to reason
about the id strings produced by the counter). -/
def charToDigit (c : Char) : Nat := c.toNat - 48

/-- The numeric value of a decimal digit string (used only to reason about
the id strings produced by the counter). -/
def decodeDigits (l : List Char) : Nat :=
  l.foldl (fun a c => a * 10 + charToDigit c) 0

lemma acceptDiff_counter (storage : DiffStorage) (doc : String) (pos : Nat) :
    (acceptDiff storage doc pos).2.1.modificationCounter = storage.modificationCounter := by
  unfold acceptDiff
  cases h : storage.modifications.find? (inWidenedRange pos) <;> simp

/-- Claim C2: whenever `acceptDiff` finds a modification near the caret it
returns `true`, the document span of the found modification is replaced by
its `newText` in one splice, and no modification with the resolved id is
left in the store. -/
theorem acceptDiff_atomic_accept (storage : DiffStorage) (doc : String) (pos : Nat)
    (m : Modification)
    (hfind : storage.modifications.find? (inWidenedRange pos) = some m) :
    (acceptDiff storage doc pos).1 = true ∧
    (acceptDiff storage doc pos).2.2 = replaceWith doc m.«from» m.«to» m.newText ∧
    ∀ x ∈ (acceptDiff storage doc pos).2.1.modifications, x.id ≠ m.id := by
  unfold acceptDiff
  rw [hfind]
  refine ⟨rfl, rfl, ?_⟩
  intro x hx
  simp only [List.mem_filter] at hx
  simpa [bne_iff_ne] using hx.2

/-- Witness for C2, the spec example: document "Hello ", one stored
modification with span 0 to 5 and newText "Hi", caret at offset 6 (inside
the widened range up to 7): accept returns `true`, the document becomes
"Hi ", and the store is empty. -/
theorem acceptDiff_atomic_accept_witness :
    (acceptDiff ⟨[⟨"mod-0", 0, 5, "Hi"⟩], 1⟩ "Hello " 6).1 = true ∧
    (acceptDiff ⟨[⟨"mod-0", 0, 5, "Hi"⟩], 1⟩ "Hello " 6).2.2 = "Hi " ∧
    (acceptDiff ⟨[⟨"mod-0", 0, 5, "Hi"⟩], 1⟩ "Hello " 6).2.1.modifications = [] := by
  have h := acceptDiff_atomic_accept ⟨[⟨"mod-0", 0, 5, "Hi"⟩], 1⟩ "Hello " 6
    ⟨"mod-0", 0, 5, "Hi"⟩ (by decide)
  exact ⟨h.1, h.2.1.trans (by decide), by decide⟩

/-- Claim C3: when the caret is outside every stored modification's
widened range, `acceptDiff` returns `false` and leaves both the storage
and the document unchanged. -/
theorem acceptDiff_no_match_noop (storage : DiffStorage) (doc : String) (pos : Nat)
    (h : ∀ m ∈ storage.modifications, inWidenedRange pos m = false) :
    acceptDiff storage doc pos = (false, storage, doc) := by
  unfold acceptDiff
  have hn : storage.modifications.find? (inWidenedRange pos) = none :=
    List.find?_eq_none.mpr (fun x hx => by simp [h x hx])
  rw [hn]

/-- Witness for C3: a store holding one modification with widened range 0
to 4 and the caret at 6 is left unchanged with result `false`. -/
theorem acceptDiff_no_match_noop_witness :
    acceptDiff ⟨[⟨"mod-0", 0, 2, "Hi"⟩], 1⟩ "Hello " 6 =
      (false, ⟨[⟨"mod-0", 0, 2, "Hi"⟩], 1⟩, "Hello ") :=
  acceptDiff_no_match_noop _ _ _ (by decide)

/-- Claim C4: `acceptDiff` resolves the first modification in store order
whose widened range contains the caret: if the store splits as
`pre ++ m :: post` with every element of `pre` missing the caret and `m`
containing it, and the stored ids are pairwise distinct, then the call
returns `true`, resolves exactly `m`, and leaves precisely `pre ++ post`
pending. -/
theorem acceptDiff_first_found_tie_break (storage : DiffStorage) (doc : String) (pos : Nat)
    (pre post : List Modification) (m : Modification)
    (hdecomp : storage.modifications = pre ++ m :: post)
    (hpre : ∀ x ∈ pre, inWidenedRange pos x = false)
    (hm : inWidenedRange pos m = true)
    (hids : (storage.modifications.map Modification.id).Nodup) :
    acceptDiff storage doc pos =
      (true, ⟨pre ++ post, storage.modificationCounter⟩,
       replaceWith doc m.«from» m.«to» m.newText) := by
  have hfind : storage.modifications.find? (inWidenedRange pos) = some m := by
    rw [hdecomp, List.find?_append]
    have h1 : pre.find? (inWidenedRange pos) = none :=
      List.find?_eq_none.mpr (fun x hx => by simp [hpre x hx])
    rw [h1, List.find?_cons_of_pos _ hm]
    rfl
  rw [hdecomp] at hids
  simp only [List.map_append, List.map_cons] at hids
  have hnd := List.nodup_append.mp hids
  have hpreid : ∀ x ∈ pre, x.id ≠ m.id := by
    intro x hx heq
    exact hnd.2.2 (List.mem_map_of_mem Modification.id hx)
      (by rw [heq]; exact List.mem_cons_self _ _)
  have hpostid : ∀ x ∈ post, x.id ≠ m.id := by
    intro x hx heq
    have hmem : m.id ∈ post.map Modification.id := by
      rw [← heq]; exact List.mem_map_of_mem Modification.id hx
    exact (List.nodup_cons.mp hnd.2.1).1 hmem
  have hfilter : (pre ++ m :: post).filter (fun x => x.id != m.id) = pre ++ post := by
    rw [List.filter_append]
    congr 1
    · exact List.filter_eq_self.mpr (fun x hx => by simp [bne_iff_ne, hpreid x hx])
    · rw [List.filter_cons_of_neg (by simp)]
      exact List.filter_eq_self.mpr (fun x hx => by simp [bne_iff_ne, hpostid x hx])
  unfold acceptDiff
  rw [hfind]
  have hst : ({ storage with
      modifications := storage.modifications.filter (fun x => x.id != m.id) } : DiffStorage) =
      (⟨pre ++ post, storage.modificationCounter⟩ : DiffStorage) := by
    rw [DiffStorage.mk.injEq]
    exact ⟨by rw [hdecomp, hfilter], rfl⟩
  exact congrArg
    (fun st => ((true : Bool), st, replaceWith doc m.«from» m.«to» m.newText)) hst

/-- Witness for C4, the spec example: two overlapping modifications with
spans 0 to 5 (newText "A") and 3 to 8 (newText "B"), caret at 4: exactly
the first-registered one is resolved and the other remains pending. -/
theorem acceptDiff_first_found_tie_break_witness :
    acceptDiff ⟨[⟨"mod-0", 0, 5, "A"⟩, ⟨"mod-1", 3, 8, "B"⟩], 2⟩ "HelloWorld" 4 =
      (true, ⟨[⟨"mod-1", 3, 8, "B"⟩], 2⟩, "AWorld") := by
  have h := acceptDiff_first_found_tie_break
    ⟨[⟨"mod-0", 0, 5, "A"⟩, ⟨"mod-1", 3, 8, "B"⟩], 2⟩ "HelloWorld" 4
    [] [⟨"mod-1", 3, 8, "B"⟩] ⟨"mod-0", 0, 5, "A"⟩ rfl (by decide) (by decide) (by decide)
  exact h.trans (by decide)

/-- Claim C9: clearing is idempotent on the store (empty after each of two
consecutive calls) and decoration projection over the cleared store yields
no decorations. -/
theorem clearDiffs_idempotent_empty_projection (storage : DiffStorage) :
    (clearDiffs storage).modifications = [] ∧
    clearDiffs (clearDiffs storage) = clearDiffs storage ∧
    createDecorationsForPlugin (clearDiffs storage).modifications = [] :=
  ⟨rfl, rfl, rfl⟩

/-- Claim C1 is violated by the code: starting from document "Hello" with
the stored modification produced by `addDiff` over the span 0 to 5, a
transaction deleting the range 1 to 5 leaves the stored coordinates as
they were (still 0 to 5, not remapped), so the stored span is out of
bounds for the new one-character document, and the recreated decorations
are projected from the stale coordinates; the transaction's position map
would instead send the span to 0 to 1. -/
theorem diffDecorations_positions_not_remapped :
    (addDiff ⟨[], 0⟩ 0 5 "Hi").1 = ⟨[⟨"mod-0", 0, 5, "Hi"⟩], 1⟩ ∧
    applyDeleteEdit
        ⟨"Hello", ⟨[⟨"mod-0", 0, 5, "Hi"⟩], 1⟩,
         createDecorationsForPlugin [⟨"mod-0", 0, 5, "Hi"⟩]⟩ 1 5 =
      ⟨"H", ⟨[⟨"mod-0", 0, 5, "Hi"⟩], 1⟩,
       [Decoration.inline 0 5 "diff-delete" "mod-0",
        Decoration.widget 5 "diff-insert" "Hi" "mod-0"]⟩ ∧
    ¬((5 : Nat) ≤ ("H" : String).length) ∧
    mapPosDelete 1 5 0 = 0 ∧ mapPosDelete 1 5 5 = 1 := by
  decide

/-- Claim C10 as stated is refuted by a store holding a modification with
empty newText whose narrow range reaches the caret: at caret 4, every
modification whose widened range contains the caret has its `to` plus one
strictly below the caret, yet the Tab handler is triggered by the
empty-newText modification's narrow check and performs an acceptance. -/
theorem tab_gap_claim_fails_empty_newText :
    (∀ m ∈ ([⟨"mod-0", 0, 3, ""⟩, ⟨"mod-1", 0, 2, "XXXX"⟩] : List Modification),
        inWidenedRange 4 m = true → m.«to» + 1 < 4) ∧
    (∃ m ∈ ([⟨"mod-0", 0, 3, ""⟩, ⟨"mod-1", 0, 2, "XXXX"⟩] : List Modification),
        inWidenedRange 4 m = true) ∧
    (diffTabHandler "Tab" ⟨[⟨"mod-0", 0, 3, ""⟩, ⟨"mod-1", 0, 2, "XXXX"⟩], 2⟩
        "abcdef" 4).1 = true := by
  decide

/-- Claim C10 (amended): when no stored modification passes the Tab
handler's narrow proximity check `from ≤ pos ≤ to + 1` while some stored
modification's widened range contains the caret, pressing Tab performs no
acceptance and falls through to the default behavior with storage and
document unchanged, even though a direct `acceptDiff` call would return
`true` in the same state. -/
theorem tab_reachability_gap_amended (storage : DiffStorage) (doc : String) (pos : Nat)
    (hnarrow : ∀ m ∈ storage.modifications, ¬(m.«from» ≤ pos ∧ pos ≤ m.«to» + 1))
    (hwide : ∃ m ∈ storage.modifications, inWidenedRange pos m = true) :
    diffTabHandler "Tab" storage doc pos = (false, storage, doc) ∧
    (acceptDiff storage doc pos).1 = true := by
  have hnear : isNearModificationCheck storage.modifications pos = false := by
    unfold isNearModificationCheck
    rw [List.any_eq_false]
    intro x hx
    simp only [Bool.and_eq_true, decide_eq_true_eq, not_and]
    intro h1 h2
    exact hnarrow x hx ⟨h1, h2⟩
  constructor
  · simp [diffTabHandler, hnear]
  · obtain ⟨m, hmem, hm⟩ := hwide
    cases hf : storage.modifications.find? (inWidenedRange pos) with
    | none => exact absurd (List.find?_eq_none.mp hf m hmem) (by simp [hm])
    | some m2 => simp [acceptDiff, hf]

/-- Witness for the amended C10: one stored modification spanning 0 to 3
with a four-character newText, caret at 6: the narrow check reaches only
up to 4, so Tab is a no-op, while `acceptDiff` itself would accept. -/
theorem tab_reachability_gap_amended_witness :
    diffTabHandler "Tab" ⟨[⟨"mod-0", 0, 3, "WXYZ"⟩], 1⟩ "abcdef" 6 =
      (false, ⟨[⟨"mod-0", 0, 3, "WXYZ"⟩], 1⟩, "abcdef") ∧
    (acceptDiff ⟨[⟨"mod-0", 0, 3, "WXYZ"⟩], 1⟩ "abcdef" 6).1 = true :=
  tab_reachability_gap_amended _ _ _ (by decide) (by decide)

/-- Claim C5: a completion response arriving when the editor state differs
from the state captured at fetch time is discarded (the suggestion slot
and its rendering are unchanged), and a response can install a suggestion
only when the state is unchanged. -/
theorem completionResponse_stale_discard (completion : String) (captured current : Nat)
    (cur : Option String) :
    (captured ≠ current →
      handleCompletionResponse completion captured current cur = cur ∧
      ∀ selEmpty pos,
        suggestionDecorations (handleCompletionResponse completion captured current cur)
            selEmpty pos =
          suggestionDecorations cur selEmpty pos) ∧
    (handleCompletionResponse completion captured current cur ≠ cur →
      captured = current) := by
  constructor
  · intro hne
    have hc : (captured == current) = false := by simp [hne]
    have h : handleCompletionResponse completion captured current cur = cur := by
      simp [handleCompletionResponse, hc]
    exact ⟨h, fun selEmpty pos => by rw [h]⟩
  · intro hch
    by_contra hne
    have hc : (captured == current) = false := by simp [hne]
    exact hch (by simp [handleCompletionResponse, hc])

/-- Witness for C5: a stale response (state version 1 captured, version 2
current) does not install the completion. -/
theorem completionResponse_stale_discard_witness :
    handleCompletionResponse "hi" 1 2 none = none :=
  ((completionResponse_stale_discard "hi" 1 2 none).1 (by decide)).1

/-- Claim C7 is false on the code: with a pending suggestion showing and a
collapsed selection, a key press other than Tab is not handled by the key
handler (which leaves the slot and the document alone), and the
trigger-plugin update running after the keystroke with a still-collapsed
selection also leaves the slot untouched: the suggestion is still pending
and still rendered at the caret. -/
theorem keypress_does_not_clear_suggestion :
    suggestionHandleKeyDown "a" (some "foo") "Hello" 5 true =
      (false, some "foo", "Hello") ∧
    autocompleteTriggerUpdate true (some "foo") "Helloa" = (some "foo", "Helloa") ∧
    suggestionDecorations (some "foo") true 6 =
      [Decoration.widget 6 "inline-suggestion" "foo" ""] := by
  decide

/-- Claim C7 (amended): the selection becoming non-collapsed clears the
pending suggestion without touching the document, while a key press other
than Tab is left unhandled and does not clear the pending suggestion (both
the slot and the document are unchanged by the handler). -/
theorem suggestion_invalidation_amended (key : String) (cur : Option String)
    (doc : String) (pos : Nat) (parentIsTextBlock : Bool)
    (hkey : key ≠ "Tab") :
    suggestionHandleKeyDown key cur doc pos parentIsTextBlock = (false, cur, doc) ∧
    autocompleteTriggerUpdate false cur doc = (none, doc) := by
  constructor
  · unfold suggestionHandleKeyDown
    rw [if_neg hkey]
  · rfl

/-- Witness for the amended C7 at the key "a" with a pending suggestion. -/
theorem suggestion_invalidation_amended_witness :
    suggestionHandleKeyDown "a" (some "bar") "Hello" 5 true =
      (false, some "bar", "Hello") ∧
    autocompleteTriggerUpdate false (some "bar") "Hello" = (none, "Hello") :=
  suggestion_invalidation_amended "a" (some "bar") "Hello" 5 true (by decide)

lemma foldl_triggerUpdate_window (rest : List Nat) : ∀ (t : Nat),
    withinWindow t rest = true →
    List.foldl triggerUpdate { pending := some (t + debounceMs), fired := [] } rest =
      { pending := some (lastTime t rest + debounceMs), fired := [] } := by
  induction rest with
  | nil => intro t _; rfl
  | cons b bs ih =>
    intro t hw
    simp only [withinWindow, Bool.and_eq_true, decide_eq_true_eq] at hw
    obtain ⟨⟨h1, h2⟩, h3⟩ := hw
    rw [List.foldl_cons]
    have hstep : triggerUpdate { pending := some (t + debounceMs), fired := [] } b =
        { pending := some (b + debounceMs), fired := [] } := by
      unfold triggerUpdate fireDue
      simp only
      rw [if_neg (by omega)]
    rw [hstep, ih b h3]
    rfl

/-- Claim C6: over a sequence of editor-update triggers each arriving
inside the debounce window of its predecessor, no fetch fires during the
sequence, and letting the timeline run out issues exactly one fetch, at
the time of the last trigger plus the full window. -/
theorem debounce_single_fetch (t : Nat) (rest : List Nat)
    (hw : withinWindow t rest = true) :
    (runTriggers (t :: rest)).fired = [] ∧
    elapse (runTriggers (t :: rest)) = [lastTime t rest + debounceMs] := by
  unfold runTriggers
  rw [List.foldl_cons]
  have h0 : triggerUpdate { pending := none, fired := [] } t =
      { pending := some (t + debounceMs), fired := [] } := rfl
  rw [h0, foldl_triggerUpdate_window rest t hw]
  exact ⟨rfl, rfl⟩

/-- Witness for C6: three triggers at 0, 500 and 1000 milliseconds issue
exactly one fetch, at 3000 milliseconds. -/
theorem debounce_single_fetch_witness :
    (runTriggers [0, 500, 1000]).fired = [] ∧
    elapse (runTriggers [0, 500, 1000]) = [3000] := by
  have h := debounce_single_fetch 0 [500, 1000] (by decide)
  exact ⟨h.1, h.2.trans (by decide)⟩

lemma toDigitsCore_acc (fuel : Nat) : ∀ (n : Nat) (acc : List Char),
    Nat.toDigitsCore 10 fuel n acc = Nat.toDigitsCore 10 fuel n [] ++ acc := by
  induction fuel with
  | zero => intro n acc; rfl
  | succ f ih =>
    intro n acc
    simp only [Nat.toDigitsCore]
    by_cases h : n / 10 = 0
    · simp [h]
    · rw [if_neg h, if_neg h, ih (n / 10) (Nat.digitChar (n % 10) :: acc),
        ih (n / 10) [Nat.digitChar (n % 10)], List.append_assoc]
      rfl

lemma toDigitsCore_fuel : ∀ (n f1 f2 : Nat), n < f1 → n < f2 →
    Nat.toDigitsCore 10 f1 n [] = Nat.toDigitsCore 10 f2 n [] := by
  intro n
  induction n using Nat.strong_induction_on with
  | _ n ih =>
    intro f1 f2 h1 h2
    obtain ⟨g1, rfl⟩ : ∃ k, f1 = k + 1 := ⟨f1 - 1, by omega⟩
    obtain ⟨g2, rfl⟩ : ∃ k, f2 = k + 1 := ⟨f2 - 1, by omega⟩
    simp only [Nat.toDigitsCore]
    by_cases h : n / 10 = 0
    · simp [h]
    · rw [if_neg h, if_neg h, toDigitsCore_acc g1 (n / 10) _,
        toDigitsCore_acc g2 (n / 10) _]
      have hlt : n / 10 < n := by omega
      rw [ih (n / 10) hlt g1 g2 (by omega) (by omega)]

lemma toDigits_step (n : Nat) : Nat.toDigits 10 n =
    if n < 10 then [Nat.digitChar n]
    else Nat.toDigits 10 (n / 10) ++ [Nat.digitChar (n % 10)] := by
  unfold Nat.toDigits
  simp only [Nat.toDigitsCore]
  by_cases h : n / 10 = 0
  · rw [if_pos h, if_pos (by omega)]
    have : n % 10 = n := by omega
    rw [this]
  · rw [if_neg h, if_neg (by omega),
      toDigitsCore_acc n (n / 10) [Nat.digitChar (n % 10)]]
    have hlt : n / 10 < n := by omega
    rw [toDigitsCore_fuel (n / 10) n (n / 10 + 1) (by omega) (by omega)]
    congr 1

lemma decode_append_digit (l : List Char) (c : Char) :
    decodeDigits (l ++ [c]) = decodeDigits l * 10 + charToDigit c := by
  unfold decodeDigits
  rw [List.foldl_append]
  rfl

lemma charToDigit_digitChar (d : Nat) (h : d < 10) :
    charToDigit (Nat.digitChar d) = d := by
  interval_cases d <;> decide

lemma decode_toDigits (n : Nat) : decodeDigits (Nat.toDigits 10 n) = n := by
  induction n using Nat.strong_induction_on with
  | _ n ih =>
    rw [toDigits_step]
    by_cases h : n < 10
    · rw [if_pos h]
      have h1 : decodeDigits [Nat.digitChar n] = charToDigit (Nat.digitChar n) := by
        simp [decodeDigits]
      rw [h1, charToDigit_digitChar n h]
    · rw [if_neg h, decode_append_digit, ih (n / 10) (by omega),
        charToDigit_digitChar (n % 10) (by omega)]
      omega

lemma natRepr_injective (a b : Nat) (h : Nat.repr a = Nat.repr b) : a = b := by
  have hd : Nat.toDigits 10 a = Nat.toDigits 10 b := by
    unfold Nat.repr at h
    exact congrArg String.data h
  have := congrArg decodeDigits hd
  rwa [decode_toDigits, decode_toDigits] at this

lemma mkId_injective (a b : Nat) (h : mkId a = mkId b) : a = b := by
  apply natRepr_injective
  unfold mkId at h
  have h2 : ("mod-").data ++ (Nat.repr a).data = ("mod-").data ++ (Nat.repr b).data :=
    congrArg String.data h
  have h3 := List.append_cancel_left h2
  exact congrArg String.mk h3

lemma runSession_issued : ∀ (ops : List SessionOp) (storage : DiffStorage) (doc : String),
    (∀ op ∈ ops, op ≠ SessionOp.clear) →
    (runSession (storage, doc) ops).2 =
      (List.range' storage.modificationCounter (countAdds ops)).map mkId := by
  intro ops
  induction ops with
  | nil => intro storage doc _; rfl
  | cons op ops ih =>
    intro storage doc hnc
    cases op with
    | add f t txt =>
      have hc : countAdds (SessionOp.add f t txt :: ops) = countAdds ops + 1 := by
        simp [countAdds, List.countP_cons]
      rw [hc, List.range'_succ _ _ 1, List.map_cons]
      simp only [runSession, runOp, addDiff]
      rw [ih _ _ (fun o ho => hnc o (List.mem_cons_of_mem _ ho))]
      rfl
    | clear => exact absurd rfl (hnc _ (List.mem_cons_self _ _))
    | accept pos =>
      have hc : countAdds (SessionOp.accept pos :: ops) = countAdds ops := by
        simp [countAdds, List.countP_cons]
      rw [hc]
      simp only [runSession, runOp]
      rw [ih _ _ (fun o ho => hnc o (List.mem_cons_of_mem _ ho)), acceptDiff_counter]
      rfl

/-- Claim C8 as stated is refuted: within one session, adding, clearing,
then adding again issues the id string of counter zero twice, because
`clearDiffs` resets the id counter; the issued id list is not duplicate
free. -/
theorem session_ids_repeat_after_clear :
    (runSession (⟨[], 0⟩, "Hello")
        [SessionOp.add 0 1 "x", SessionOp.clear, SessionOp.add 0 1 "y"]).2 =
      ["mod-0", "mod-0"] ∧
    ¬((runSession (⟨[], 0⟩, "Hello")
        [SessionOp.add 0 1 "x", SessionOp.clear, SessionOp.add 0 1 "y"]).2).Nodup := by
  decide

/-- Claim C8 (amended): within any stretch of a session free of
`clearDiffs` calls, no two `addDiff` calls return the same id (the counter
increases monotonically, so the issued ids are pairwise distinct), while a
`clearDiffs` call empties the store and resets the id counter to zero
(after which earlier ids can be issued again). -/
theorem session_ids_unique_between_clears (storage : DiffStorage) (doc : String)
    (ops : List SessionOp) (hnc : ∀ op ∈ ops, op ≠ SessionOp.clear) :
    ((runSession (storage, doc) ops).2).Nodup ∧
    ∀ storage2 doc2, runOp (storage2, doc2) SessionOp.clear =
      (((⟨[], 0⟩ : DiffStorage), doc2), []) := by
  constructor
  · rw [runSession_issued ops storage doc hnc]
    exact List.Nodup.map (fun a b h => mkId_injective a b h) (List.nodup_range' _ _)
  · intro storage2 doc2
    rfl

/-- Witness for the amended C8: a clear-free session of two adds and one
accept issues pairwise distinct ids. -/
theorem session_ids_unique_between_clears_witness :
    ((runSession (⟨[], 0⟩, "Hi")
        [SessionOp.add 0 1 "x", SessionOp.add 2 3 "y", SessionOp.accept 9]).2).Nodup :=
  (session_ids_unique_between_clears ⟨[], 0⟩ "Hi"
    [SessionOp.add 0 1 "x", SessionOp.add 2 3 "y", SessionOp.accept 9] (by decide)).1
